import Mathlib

/-
  Shallow embedding of src/scripts/ai-config-sync.py.

  Python strings are modelled as `List Char`.  File contents are byte/character
  sequences; an absent file is `none`.  The MD5 content hash used by the source
  (`file_hash`) is modelled as the content itself, i.e. hash equality is
  content equality (the digest is treated as collision-free, as the spec's
  "any collision-resistant digest" interface allows).  `datetime.now()` is
  modelled as an explicit timestamp argument.  Symbolic links are outside the
  state model: every present file is a regular file with a content.
-/

namespace AiSync

/-! ## Python string primitives -/

/-- Python whitespace characters as used by `str.strip()` (ASCII subset;
the source only ever strips ASCII whitespace in the texts it handles). -/
def isPyWS (c : Char) : Bool :=
  c == ' ' || c == '\t' || c == '\n' || c == '\r' || c == '\x0b' || c == '\x0c'

/-- ASCII lowercasing, modelling Python `str.lower()` on the ASCII texts the
source compares (the sentinel strings and the true/false tokens are ASCII). -/
def pyLower (c : Char) : Char :=
  if 'A' ≤ c && c ≤ 'Z' then Char.ofNat (c.toNat + 32) else c

/-- Python `str.lstrip()`: drop leading whitespace. -/
def lstripL (l : List Char) : List Char := l.dropWhile isPyWS

/-- Python `str.rstrip()`: drop trailing whitespace. -/
def rstripL (l : List Char) : List Char := (l.reverse.dropWhile isPyWS).reverse

/-- Python `str.strip()`: drop whitespace from both ends. -/
def stripL (l : List Char) : List Char := rstripL (lstripL l)

/-- Python `str.strip(q)` for a single character `q`: drop all leading and
trailing occurrences of `q`. -/
def stripCharEnds (q : Char) (l : List Char) : List Char :=
  ((l.dropWhile (fun c => c == q)).reverse.dropWhile (fun c => c == q)).reverse

/-- Does `hay` start with `needle`?  (Python `str.startswith`.) -/
def startsWithL : List Char → List Char → Bool
  | [], _ => true
  | _ :: _, [] => false
  | a :: as, b :: bs => a == b && startsWithL as bs

/-- Scan of Python `str.find(needle, start)`: `acc` is the absolute index of
the head of the remaining haystack; returns the absolute index of the first
occurrence, `none` if there is none (Python returns -1). -/
def findSubAux (needle : List Char) : List Char → Nat → Option Nat
  | [], acc => if needle.isEmpty then some acc else none
  | l@(_ :: rest), acc =>
      if startsWithL needle l then some acc else findSubAux needle rest (acc + 1)

/-- Python `str.split(sep)` for a one-character separator `\n`. -/
def splitOnNL : List Char → List (List Char)
  | [] => [[]]
  | c :: rest =>
      if c == '\n' then [] :: splitOnNL rest
      else
        match splitOnNL rest with
        | [] => [[c]]
        | line :: more => (c :: line) :: more

/-- Python `line.split(":", 1)` combined with the `":" in line` guard:
`none` when the line has no colon, otherwise the parts before and after
the first colon. -/
def splitFirstColon : List Char → Option (List Char × List Char)
  | [] => none
  | c :: rest =>
      if c == ':' then some ([], rest)
      else (splitFirstColon rest).map (fun p => (c :: p.1, p.2))

/-- Line-break characters recognised by Python `str.splitlines()`. -/
def isLineBreakChar (c : Char) : Bool :=
  c == '\n' || c == '\r' || c == '\x0b' || c == '\x0c' ||
  c == '\x1c' || c == '\x1d' || c == '\x1e' ||
  c == Char.ofNat 133 || c == Char.ofNat 8232 || c == Char.ofNat 8233

/-- Helper for `countLines`: the `Bool` says whether we are inside a line that
has already been counted.  `\r\n` is a single line boundary. -/
def countLinesAux : Bool → List Char → Nat
  | _, [] => 0
  | inside, '\r' :: '\n' :: rest =>
      (if inside then 0 else 1) + countLinesAux false rest
  | inside, c :: rest =>
      if isLineBreakChar c then (if inside then 0 else 1) + countLinesAux false rest
      else (if inside then 0 else 1) + countLinesAux true rest

/-- `len(s.splitlines())`, as used for the divergence report. -/
def countLines (l : List Char) : Nat := countLinesAux false l

/-! ## MDC format conversion (source: `markdown_to_mdc` / `mdc_to_markdown`) -/

/-- A metadata value: Python keeps the parsed value as a string unless it is
coerced to a boolean. -/
inductive MValue
  | str (s : List Char)
  | bool (b : Bool)
deriving DecidableEq

/-- Python dict assignment `metadata[key] = value` on an insertion-ordered
association list: overwrite in place if the key is present, else append. -/
def setMeta (m : List (List Char × MValue)) (k : List Char) (v : MValue) :
    List (List Char × MValue) :=
  if m.any (fun p => p.1 == k) then
    m.map (fun p => if p.1 == k then (k, v) else p)
  else m ++ [(k, v)]

/-- The double-quote character. -/
def dquote : Char := Char.ofNat 34

/-- The single-quote character. -/
def squote : Char := Char.ofNat 39

/-- Python `value.lower() == "true"` / `== "false"` coercion. -/
def parseBoolToken (v : List Char) : Option Bool :=
  if v.map pyLower == "true".data then some true
  else if v.map pyLower == "false".data then some false
  else none

/-- One iteration of the frontmatter-parsing loop of `mdc_to_markdown`:
skip the line if it has no colon; otherwise split at the first colon, strip
the key of whitespace, strip the value of whitespace then of all leading and
trailing double quotes then single quotes, coerce `true`/`false`, and store. -/
def processLine (m : List (List Char × MValue)) (line : List Char) :
    List (List Char × MValue) :=
  match splitFirstColon line with
  | none => m
  | some (k, v) =>
      let key := stripL k
      let value := stripCharEnds squote (stripCharEnds dquote (stripL v))
      match parseBoolToken value with
      | some b => setMeta m key (MValue.bool b)
      | none => setMeta m key (MValue.str value)

/-- The frontmatter-parsing loop of `mdc_to_markdown`. -/
def parseFrontmatter (fm : List Char) : List (List Char × MValue) :=
  (splitOnNL fm).foldl processLine []

/-- The `---` fence delimiting MDC frontmatter. -/
def openFence : List Char := "---".data

/-- Source `markdown_to_mdc(content, description, globs, always_apply)`:
emit YAML-style frontmatter (description quoted and only if non-empty, globs
only if non-empty, alwaysApply always, lowercased) followed by a blank line
and the content. -/
def markdown_to_mdc (content description globs : List Char)
    (always_apply : Bool) : List Char :=
  "---\n".data ++
  (if description.isEmpty then [] else
    "description: ".data ++ [dquote] ++ description ++ [dquote] ++ "\n".data) ++
  (if globs.isEmpty then [] else "globs: ".data ++ globs ++ "\n".data) ++
  ("alwaysApply: ".data ++ (if always_apply then "true".data else "false".data)
    ++ "\n".data) ++
  "---\n\n".data ++ content

/-- Source `mdc_to_markdown(content)`: if the input does not start with the
fence, or no closing fence is found from index 3 on, the whole input is the
body with empty metadata; otherwise the region between the fences (stripped)
is parsed as metadata and the rest (stripped) is the body. -/
def mdc_to_markdown (content : List Char) :
    List Char × List (List Char × MValue) :=
  if startsWithL openFence content then
    match findSubAux openFence (content.drop 3) 3 with
    | none => (content, [])
    | some endIdx =>
        (stripL (content.drop (endIdx + 3)),
         parseFrontmatter (stripL ((content.drop 3).take (endIdx - 3))))
  else (content, [])

/-! ## Instruction file synchronisation (source: `InstructionSyncer`) -/

/-- The template written to AGENTS.md when neither instruction file exists
(source `InstructionSyncer._create_template`). -/
def templateContent : List Char :=
  ("# Project Instructions for AI Coding Assistants\n\n## Overview\nThis file provides instructions and context for AI coding assistants (Claude Code, Cursor, etc.).\nIt follows the AGENTS.md standard: https://agents.md/\n\n## Project Context\n<!-- Add your project description here -->\n\n## Coding Standards\n- Follow existing code style and conventions\n- Write clear, self-documenting code\n- Include appropriate error handling\n- Add tests for new functionality\n\n## Architecture\n<!-- Describe your project\x27s architecture -->\n\n## Common Commands\n```bash\n# Development\nnpm run dev          # Start development server\nnpm run build        # Build for production\nnpm run test         # Run tests\nnpm run lint         # Run linter\n```\n\n## File Structure\n<!-- Describe important directories and files -->\n\n## Dependencies\n<!-- List key dependencies and their purposes -->\n\n## Notes\n<!-- Any additional context for the AI assistant -->\n").data

/-- The reference stub written to CLAUDE.md
(source `InstructionSyncer._create_claude_reference`). -/
def referenceContent : List Char := "See @AGENTS.md\n".data

/-- The reference-stub sentinel test of `_reconcile_both`:
`claude_content.strip().lower()` starts with `see @agents.md` or
`see agents.md`. -/
def stubCheck (c : List Char) : Bool :=
  startsWithL "see @agents.md".data ((stripL c).map pyLower) ||
  startsWithL "see agents.md".data ((stripL c).map pyLower)

/-- The contents of the two instruction files; `none` means the file does not
exist. `agents` is AGENTS.md (canonical), `claude` is CLAUDE.md (mirror). -/
structure InstrState where
  agents : Option (List Char)
  claude : Option (List Char)
deriving DecidableEq

/-- The reconciliation outcome of one `InstructionSyncer.sync` pass, one
constructor per branch of the source's decision procedure.  `Diverged`
carries the two reported line counts (canonical first). -/
inductive Outcome
  | Bootstrapped
  | Migrated
  | ReferenceCreated
  | InSync
  | Diverged (canonicalLines mirrorLines : Nat)
deriving DecidableEq

/-- Is the outcome `Diverged`?  (The source returns `False` exactly there.) -/
def Outcome.isDiverged : Outcome → Bool
  | .Diverged _ _ => true
  | _ => false

/-- Source `InstructionSyncer.sync(self)`: the four-case decision procedure.
Case 1: neither file exists — write the template and the reference stub.
Case 2: only CLAUDE.md exists — copy it to AGENTS.md, then write the stub.
Case 3: only AGENTS.md exists — write the stub.
Case 4: both exist (`_reconcile_both`) — stub check, then hash comparison
(modelled as content equality), else report divergence with line counts;
this case never writes.  With `dryRun` no branch writes. -/
def sync : InstrState → Bool → Outcome × InstrState
  | ⟨none, none⟩, dryRun =>
      (Outcome.Bootstrapped,
       if dryRun then ⟨none, none⟩
       else ⟨some templateContent, some referenceContent⟩)
  | ⟨none, some c⟩, dryRun =>
      (Outcome.Migrated,
       if dryRun then ⟨none, some c⟩ else ⟨some c, some referenceContent⟩)
  | ⟨some a, none⟩, dryRun =>
      (Outcome.ReferenceCreated,
       if dryRun then ⟨some a, none⟩ else ⟨some a, some referenceContent⟩)
  | ⟨some a, some c⟩, _ =>
      if stubCheck c then (Outcome.InSync, ⟨some a, some c⟩)
      else if a == c then (Outcome.InSync, ⟨some a, some c⟩)
      else (Outcome.Diverged (countLines a) (countLines c), ⟨some a, some c⟩)

/-! ## Rules synchronisation (source: `RulesSyncer`, `backup_file`) -/

/-- Write a file into a directory modelled as an insertion-ordered association
list from file name to content: overwrite in place if present, else add. -/
def fsWrite (p c : List Char) : List (List Char × List Char) →
    List (List Char × List Char)
  | [] => [(p, c)]
  | (q, d) :: rest =>
      if q == p then (p, c) :: rest else (q, d) :: fsWrite p c rest

/-- Read a file from a directory modelled as an association list. -/
def lookupFile (p : List Char) : List (List Char × List Char) →
    Option (List Char)
  | [] => none
  | (q, d) :: rest => if q == p then some d else lookupFile p rest

/-- The backup file name `f"{path.name}.{timestamp}.bak"` built by
source `backup_file`. -/
def backupName (name ts : List Char) : List Char :=
  name ++ '.' :: (ts ++ ".bak".data)

/-- Source `backup_file(path, backup_dir)` for an existing source file:
`shutil.copy2` the content to the timestamp-qualified name in the backup
directory (overwriting whatever was at that exact name). -/
def backup_file (backups : List (List Char × List Char))
    (name content ts : List Char) : List (List Char × List Char) :=
  fsWrite (backupName name ts) content backups

/-- The provenance marker passed as `description` by
`RulesSyncer._migrate_legacy_cursorrules`. -/
def legacyDescription : List Char := "Migrated from legacy .cursorrules".data

/-- `Path(".cursorrules").name`, the base name used for the backup. -/
def cursorrulesName : List Char := ".cursorrules".data

/-- The filesystem state touched by the legacy rules migration:
the legacy `.cursorrules` content (`none` if absent), the content of the
fixed migration target `.cursor/rules/project-rules.mdc` (`none` if absent),
and the `.cursor/backups` directory. -/
structure RulesState where
  cursorrules : Option (List Char)
  projectRules : Option (List Char)
  backups : List (List Char × List Char)
deriving DecidableEq

/-- Source `RulesSyncer._migrate_legacy_cursorrules` (called only when
`.cursorrules` exists; `read_text` on an absent file would fail, hence
`none`).  `ts` is the `datetime.now()` timestamp string.  Non-dry-run:
convert the legacy content with `markdown_to_mdc` (globs defaulting to
empty), overwrite `.cursor/rules/project-rules.mdc` with it, and copy the
legacy file to its timestamped backup.  The legacy file itself is not
removed. -/
def migrate_legacy_cursorrules (s : RulesState) (ts : List Char)
    (dryRun : Bool) : Option RulesState :=
  match s.cursorrules with
  | none => none
  | some content =>
      if dryRun then some s
      else some { s with
        projectRules := some (markdown_to_mdc content legacyDescription [] true),
        backups := backup_file s.backups cursorrulesName content ts }

/-- Modelled from the spec: trimming a value of `exactly one layer of matching
quote characters` — if the first and last characters are the same quote
character, remove that one pair, else leave the value unchanged.  Used only
to compare the spec's description of value trimming with the source's. -/
def stripOneMatchingQuoteLayer (l : List Char) : List Char :=
  match l with
  | [] => []
  | c :: rest =>
      if (c == dquote || c == squote) && rest.getLast? == some c then
        rest.dropLast
      else c :: rest

/-! ## Helper lemmas -/

theorem dropWhile_idem (p : Char → Bool) (l : List Char) :
    (l.dropWhile p).dropWhile p = l.dropWhile p := by
  induction l with
  | nil => rfl
  | cons c rest ih =>
      by_cases hc : p c
      · simp [List.dropWhile_cons, hc, ih]
      · simp [List.dropWhile_cons, hc]

theorem length_dropWhile_le (p : Char → Bool) (m : List Char) :
    (m.dropWhile p).length ≤ m.length := by
  induction m with
  | nil => simp
  | cons d ds ihd =>
      by_cases hd : p d
      · simp only [List.dropWhile_cons, hd, if_pos]
        exact Nat.le_succ_of_le ihd
      · simp [List.dropWhile_cons, hd]

theorem rstripL_idem (l : List Char) : rstripL (rstripL l) = rstripL l := by
  unfold rstripL
  rw [List.reverse_reverse, dropWhile_idem]

theorem lstripL_of_head_not (c : Char) (rest : List Char)
    (hc : isPyWS c = false) : lstripL (c :: rest) = c :: rest := by
  simp [lstripL, List.dropWhile_cons, hc]

theorem lstripL_rstripL_fix (l : List Char) (h : lstripL l = l) :
    lstripL (rstripL l) = rstripL l := by
  cases l with
  | nil => rfl
  | cons c rest =>
      have hc : isPyWS c = false := by
        by_contra hcc
        rw [Bool.not_eq_false] at hcc
        have h2 : lstripL (c :: rest) = lstripL rest := by
          simp [lstripL, List.dropWhile_cons, hcc]
        rw [h2] at h
        have := congrArg List.length h
        have hle := length_dropWhile_le isPyWS rest
        simp only [lstripL, List.length_cons] at *
        omega
      unfold rstripL
      rw [List.reverse_cons, List.dropWhile_append]
      by_cases he : (rest.reverse.dropWhile isPyWS).isEmpty
      · simp only [he, if_pos]
        simp [List.dropWhile_cons, hc, lstripL]
      · simp only [he, if_neg, Bool.false_eq_true, not_false_iff]
        rw [List.reverse_append]
        simp only [List.reverse_cons, List.reverse_nil, List.nil_append]
        exact lstripL_of_head_not c _ hc

theorem stripL_idem (l : List Char) : stripL (stripL l) = stripL l := by
  unfold stripL
  rw [lstripL_rstripL_fix (lstripL l) (dropWhile_idem isPyWS l), rstripL_idem]

theorem splitFirstColon_of_no_colon (line : List Char) (h : ':' ∉ line) :
    splitFirstColon line = none := by
  induction line with
  | nil => rfl
  | cons c rest ih =>
      simp only [List.mem_cons, not_or] at h
      have hc : (c == ':') = false := by
        simp only [beq_eq_false_iff_ne, ne_eq]
        exact fun hcc => h.1 (hcc ▸ rfl)
      simp [splitFirstColon, hc, ih h.2]

theorem splitFirstColon_append (k v : List Char) (h : ':' ∉ k) :
    splitFirstColon (k ++ ':' :: v) = some (k, v) := by
  induction k with
  | nil => simp [splitFirstColon]
  | cons c rest ih =>
      simp only [List.mem_cons, not_or] at h
      have hc : (c == ':') = false := by
        simp only [beq_eq_false_iff_ne, ne_eq]
        exact fun hcc => h.1 (hcc ▸ rfl)
      simp [splitFirstColon, hc, ih h.2]

theorem lookupFile_fsWrite (p q c : List Char)
    (st : List (List Char × List Char)) :
    lookupFile p (fsWrite q c st) =
      if q = p then some c else lookupFile p st := by
  induction st with
  | nil =>
      by_cases h : q = p
      · simp [lookupFile, fsWrite, h]
      · simp [lookupFile, fsWrite, h]
  | cons hd rest ih =>
      obtain ⟨r, d⟩ := hd
      by_cases hr : r = q
      · subst hr
        simp only [fsWrite, beq_self_eq_true, if_pos]
        by_cases hp : r = p
        · simp [lookupFile, hp]
        · simp [lookupFile, hp]
      · have hr' : (r == q) = false := by simp [hr]
        simp only [fsWrite, hr', Bool.false_eq_true, if_neg, not_false_iff]
        by_cases hp : r = p
        · subst hp
          have hq : ¬ q = r := fun hh => hr hh.symm
          simp [lookupFile, hq]
        · have hp' : (r == p) = false := by simp [hp]
          simp [lookupFile, hp', ih]

theorem backupName_inj (n ts n' ts' : List Char)
    (hlen : ts.length = ts'.length)
    (h : backupName n ts = backupName n' ts') : n = n' ∧ ts = ts' := by
  unfold backupName at h
  have hsuf : ('.' :: (ts ++ ".bak".data)).length =
      ('.' :: (ts' ++ ".bak".data)).length := by
    simp [hlen]
  obtain ⟨hn, htail⟩ := List.append_inj' h hsuf
  refine ⟨hn, ?_⟩
  simp only [List.cons.injEq, true_and] at htail
  exact (List.append_inj htail hlen).1

/-! ## Claim theorems -/

/-- C1 (counterexample): with canonical content `A` and mirror content `B`
(different, mirror not a stub) the first non-dry-run `sync` pass returns
`Diverged` and writes nothing, so the second pass returns `Diverged 1 1`,
not `InSync` — refuting the claim that the second call always yields
`InSync`. -/
theorem C1_counterexample :
    (sync (sync ⟨some "A".data, some "B".data⟩ false).2 false).1 ≠
      Outcome.InSync ∧
    (sync (sync ⟨some "A".data, some "B".data⟩ false).2 false).1 =
      Outcome.Diverged 1 1 := by decide

/-- C1 (amended): for every pair of instruction-file states, the second
non-dry-run `sync` pass performs no write (the files are byte-identical
before and after it), and it yields `InSync` whenever the first pass's
outcome was not `Diverged`; after a `Diverged` first pass the second pass
yields `Diverged` again. -/
theorem C1_second_pass (s : InstrState) :
    (sync (sync s false).2 false).2 = (sync s false).2 ∧
    ((sync s false).1.isDiverged = false →
      (sync (sync s false).2 false).1 = Outcome.InSync) := by
  obtain ⟨a, c⟩ := s
  cases a with
  | none =>
      cases c with
      | none => exact ⟨rfl, fun _ => rfl⟩
      | some c => exact ⟨rfl, fun _ => rfl⟩
  | some a =>
      cases c with
      | none => exact ⟨rfl, fun _ => rfl⟩
      | some c =>
          cases hsc : stubCheck c with
          | true => simp [sync, hsc]
          | false =>
              cases heq : a == c with
              | true => simp [sync, hsc, heq]
              | false => simp [sync, hsc, heq, Outcome.isDiverged]

/-- C1 (witness): starting from the empty state, the first pass bootstraps
both files and the second pass is `InSync`. -/
theorem C1_second_pass_witness :
    (sync (sync ⟨none, none⟩ false).2 false).1 = Outcome.InSync :=
  (C1_second_pass ⟨none, none⟩).2 (by decide)

/-- C2: for every input state of the two instruction files, a dry-run `sync`
returns the same `Outcome` as the corresponding non-dry-run call and leaves
the state exactly as it was (zero filesystem mutation in every branch). -/
theorem C2_dry_run_purity (s : InstrState) :
    (sync s true).1 = (sync s false).1 ∧ (sync s true).2 = s := by
  obtain ⟨a, c⟩ := s
  cases a with
  | none =>
      cases c with
      | none => exact ⟨rfl, rfl⟩
      | some c => exact ⟨rfl, rfl⟩
  | some a =>
      cases c with
      | none => exact ⟨rfl, rfl⟩
      | some c =>
          refine ⟨rfl, ?_⟩
          cases hsc : stubCheck c with
          | true => simp [sync, hsc]
          | false =>
              cases heq : a == c with
              | true => simp [sync, hsc, heq]
              | false => simp [sync, hsc, heq]

/-- C3: for every body text `B`, parsing the serialisation of `B` with
description `d`, globs `*.ts`, alwaysApply `true` yields a body whose strip
equals `B`'s strip and exactly the metadata
`description = "d", globs = "*.ts", alwaysApply = true`, with `alwaysApply`
recovered as a boolean, not the string `true`. -/
theorem C3_round_trip (B : List Char) :
    stripL (mdc_to_markdown (markdown_to_mdc B "d".data "*.ts".data true)).1 =
      stripL B ∧
    (mdc_to_markdown (markdown_to_mdc B "d".data "*.ts".data true)).2 =
      [("description".data, MValue.str "d".data),
       ("globs".data, MValue.str "*.ts".data),
       ("alwaysApply".data, MValue.bool true)] := by
  have h : mdc_to_markdown (markdown_to_mdc B "d".data "*.ts".data true) =
      (stripL B,
       [("description".data, MValue.str "d".data),
        ("globs".data, MValue.str "*.ts".data),
        ("alwaysApply".data, MValue.bool true)]) := rfl
  rw [h]
  exact ⟨stripL_idem B, rfl⟩

/-- C4 (counterexample): migrating a legacy `.cursorrules` file with content
`rule text` (non-dry-run) leaves the legacy artifact present at its original
path — `backup_file` copies with `shutil.copy2` and nothing removes the
original — refuting the claim that the legacy artifact is absent after
migration. -/
theorem C4_counterexample :
    (migrate_legacy_cursorrules ⟨some "rule text".data, none, []⟩
        "20250101_120000".data false).map RulesState.cursorrules =
      some (some "rule text".data) := by decide

/-- C4 (amended): after a non-dry-run legacy migration, the fixed target file
holds the tagged conversion of the legacy content (whose parsed body strips
back to the legacy content), a timestamped backup with byte-identical content
exists, and the legacy artifact REMAINS at its original path (it is copied to
the backup location, not moved). -/
theorem C4_migration_effects (s : RulesState) (content ts : List Char)
    (h : s.cursorrules = some content) :
    migrate_legacy_cursorrules s ts false =
      some { s with
        projectRules := some (markdown_to_mdc content legacyDescription [] true),
        backups := backup_file s.backups cursorrulesName content ts } ∧
    stripL (mdc_to_markdown (markdown_to_mdc content legacyDescription [] true)).1
      = stripL content ∧
    lookupFile (backupName cursorrulesName ts)
      (backup_file s.backups cursorrulesName content ts) = some content ∧
    ({ s with
        projectRules := some (markdown_to_mdc content legacyDescription [] true),
        backups := backup_file s.backups cursorrulesName content ts }
      : RulesState).cursorrules = some content := by
  refine ⟨?_, ?_, ?_, ?_⟩
  · unfold migrate_legacy_cursorrules
    rw [h]
    rfl
  · have hrt : mdc_to_markdown (markdown_to_mdc content legacyDescription [] true) =
        (stripL content,
         [("description".data, MValue.str legacyDescription),
          ("alwaysApply".data, MValue.bool true)]) := rfl
    rw [hrt]
    exact stripL_idem content
  · rw [backup_file, lookupFile_fsWrite]
    simp
  · simpa using h

/-- C4 (witness): concrete migration of legacy content `a`. -/
theorem C4_migration_effects_witness :
    migrate_legacy_cursorrules ⟨some "a".data, none, []⟩
        "20250102_000000".data false =
      some ⟨some "a".data,
            some (markdown_to_mdc "a".data legacyDescription [] true),
            backup_file [] cursorrulesName "a".data "20250102_000000".data⟩ :=
  (C4_migration_effects ⟨some "a".data, none, []⟩ "a".data
    "20250102_000000".data rfl).1

/-- C5: with canonical content `A\nB` and mirror content `C\nD` (different
content, mirror not a stub), a non-dry-run `sync` returns `Diverged`
carrying line counts 2 and 2 and performs no write: both files keep their
pre-call content. -/
theorem C5_divergence_no_mutation :
    sync ⟨some "A\nB".data, some "C\nD".data⟩ false =
      (Outcome.Diverged 2 2, ⟨some "A\nB".data, some "C\nD".data⟩) := by decide

/-- C6: when only the mirror (CLAUDE.md) exists, a non-dry-run `sync` copies
the mirror's full content to the canonical file byte-for-byte, overwrites the
mirror with the reference stub, and returns `Migrated`; afterwards the
canonical content equals the mirror's pre-reconciliation content exactly. -/
theorem C6_migration_preserves_content (c : List Char) :
    sync ⟨none, some c⟩ false =
      (Outcome.Migrated, ⟨some c, some referenceContent⟩) ∧
    referenceContent = "See @AGENTS.md\n".data :=
  ⟨rfl, rfl⟩

/-- C7: an input that does not begin with the opening fence is returned
unchanged as the body with empty metadata, and an input that begins with the
fence but has no closing fence from index 3 on is returned whole as the body
with empty metadata (the embedding is a total function, so no exception is
raised in either case). -/
theorem C7_fallback_safety (X : List Char) :
    (startsWithL openFence X = false → mdc_to_markdown X = (X, [])) ∧
    (startsWithL openFence X = true →
      findSubAux openFence (X.drop 3) 3 = none →
      mdc_to_markdown X = (X, [])) := by
  constructor
  · intro h
    simp [mdc_to_markdown, h]
  · intro h1 h2
    simp [mdc_to_markdown, h1, h2]

/-- C7 (witness): `hello` does not begin with the fence; `----` begins with
the fence but has no closing fence after index 3. -/
theorem C7_fallback_safety_witness :
    mdc_to_markdown "hello".data = ("hello".data, []) ∧
    mdc_to_markdown "----".data = ("----".data, []) :=
  ⟨(C7_fallback_safety "hello".data).1 (by decide),
   (C7_fallback_safety "----".data).2 (by decide) (by decide)⟩

/-- C8 (counterexample): for the metadata line `a: ""x""`, the code strips
ALL leading/trailing double quotes and stores the value `x`, whereas
trimming exactly one layer of matching quote characters from the same raw
value would give `"x"` — refuting the claim's description of the value
trimming. -/
theorem C8_counterexample :
    processLine [] "a: \x22\x22x\x22\x22".data =
      [("a".data, MValue.str "x".data)] ∧
    stripOneMatchingQuoteLayer (stripL "\x22\x22x\x22\x22".data) =
      [dquote, 'x', dquote] ∧
    [dquote, 'x', dquote] ≠ "x".data := by decide

/-- C8 (amended): a metadata line with no colon leaves the metadata unchanged
and never fails; a line `k ++ ":" ++ v` whose `k` is colon-free (so the split
is at the first colon) stores under the whitespace-stripped key (keys are not
quote-stripped) the value stripped of whitespace, then of all leading and
trailing double quotes, then of all leading and trailing single quotes
(not necessarily matching), coerced to a boolean when it equals `true` or
`false` case-insensitively and kept as a string otherwise. -/
theorem C8_line_parsing (m : List (List Char × MValue)) (line k v : List Char) :
    (':' ∉ line → processLine m line = m) ∧
    (line = k ++ ':' :: v → ':' ∉ k →
      processLine m line =
        match parseBoolToken (stripCharEnds squote (stripCharEnds dquote (stripL v))) with
        | some b => setMeta m (stripL k) (MValue.bool b)
        | none => setMeta m (stripL k)
            (MValue.str (stripCharEnds squote (stripCharEnds dquote (stripL v))))) := by
  constructor
  · intro h
    simp [processLine, splitFirstColon_of_no_colon line h]
  · intro hline hk
    subst hline
    simp [processLine, splitFirstColon_append k v hk]

/-- C8 (witness): the line `alwaysApply: TRUE` parses to the boolean `true`
under the key `alwaysApply`. -/
theorem C8_line_parsing_witness :
    processLine [] "alwaysApply: TRUE".data =
      [("alwaysApply".data, MValue.bool true)] := by
  have h := (C8_line_parsing [] "alwaysApply: TRUE".data "alwaysApply".data
    " TRUE".data).2 rfl (by decide)
  rw [h]
  decide

/-- C9 (counterexample): two backups of a file named `f` taken at the same
second-granularity timestamp write to the same `<name>.<timestamp>.bak` path,
so the second destroys the first backup's content — refuting the claim that
a backup never overwrites a previously written backup. -/
theorem C9_counterexample :
    backup_file (backup_file [] "f".data "c1".data "20250101_000000".data)
        "f".data "c2".data "20250101_000000".data =
      [(backupName "f".data "20250101_000000".data, "c2".data)] ∧
    "c1".data ≠ "c2".data := by decide

/-- C9 (amended): backups go to `<name>.<timestamp>.bak`; writing a backup
leaves every backup whose source name or timestamp differs (timestamps being
the fixed-length `YYYYMMDD_HHMMSS` form, so of equal length) byte-identical —
overwriting is possible only for the same name at the same timestamp. -/
theorem C9_backup_additive (st : List (List Char × List Char))
    (n c ts n' ts' : List Char) (hlen : ts.length = ts'.length)
    (hne : ¬ (n = n' ∧ ts = ts')) :
    lookupFile (backupName n' ts') (backup_file st n c ts) =
      lookupFile (backupName n' ts') st := by
  rw [backup_file, lookupFile_fsWrite, if_neg]
  intro heq
  exact hne (backupName_inj n ts n' ts' hlen heq)

/-- C9 (witness): a backup of `f` does not disturb the stored backup of `g`
taken at the same timestamp. -/
theorem C9_backup_additive_witness :
    lookupFile (backupName "g".data "20250101_000000".data)
        (backup_file [(backupName "g".data "20250101_000000".data, "old".data)]
          "f".data "new".data "20250101_000000".data) =
      lookupFile (backupName "g".data "20250101_000000".data)
        [(backupName "g".data "20250101_000000".data, "old".data)] :=
  C9_backup_additive [(backupName "g".data "20250101_000000".data, "old".data)]
    "f".data "new".data "20250101_000000".data "g".data
    "20250101_000000".data rfl (by decide)

/-- C10: the legacy migration writes its output to the fixed target
(`.cursor/rules/project-rules.mdc`, the `projectRules` field), unconditionally
overwriting whatever content was there, and the only backup written is of the
legacy source: every backup entry after migration is either a pre-existing
entry or holds the legacy content. -/
theorem C10_target_overwrite (s : RulesState) (content prevTarget ts : List Char)
    (h : s.cursorrules = some content) (hprev : s.projectRules = some prevTarget) :
    migrate_legacy_cursorrules s ts false =
      some { s with
        projectRules := some (markdown_to_mdc content legacyDescription [] true),
        backups := backup_file s.backups cursorrulesName content ts } ∧
    (∀ p c', lookupFile p (backup_file s.backups cursorrulesName content ts) =
        some c' → lookupFile p s.backups = some c' ∨ c' = content) := by
  constructor
  · unfold migrate_legacy_cursorrules
    rw [h]
    rfl
  · intro p c' hp
    rw [backup_file, lookupFile_fsWrite] at hp
    by_cases hkey : backupName cursorrulesName ts = p
    · right
      rw [if_pos hkey] at hp
      exact (Option.some.injEq _ _ ▸ hp : content = c').symm
    · left
      rw [if_neg hkey] at hp
      exact hp

/-- C10 (witness): concrete migration over an existing target file `old`:
the target is overwritten with the converted legacy content. -/
theorem C10_target_overwrite_witness :
    migrate_legacy_cursorrules ⟨some "x".data, some "old".data, []⟩
        "20250103_000000".data false =
      some ⟨some "x".data,
            some (markdown_to_mdc "x".data legacyDescription [] true),
            backup_file [] cursorrulesName "x".data "20250103_000000".data⟩ :=
  (C10_target_overwrite ⟨some "x".data, some "old".data, []⟩ "x".data
    "old".data "20250103_000000".data rfl rfl).1

end AiSync
